import Mathlib

/-
  Verification development for the Skillverse cart/wishlist state container
  (CartWishlistContext.js).

  Shallow embedding notes:
  - JS numbers are modelled as exact rationals (ℚ).  A JS value occurring in a
    numeric position (price, quantity) is modelled by `JNum`: either a rational
    (its value under `Number(·)` coercion) or `nan` (the coercion produced NaN,
    e.g. for a non-numeric string or `undefined`).
  - Cart/wishlist items are records with the fields the container reads:
    `id` (the sole equality key, compared with `===`), `title`, `price`,
    `quantity`.  The JS object spread `{ ...x, quantity: q }` is modelled by
    Lean structure update.
  - Each mutating operation returns the next items list together with the
    number of user-facing toast messages the call fires, mirroring the source
    (`added` flag for addToCart/addToWishlist, unconditional toasts for
    remove/clear, none for updateQuantity).
  - The localStorage loader is modelled over an explicit `Stored` type covering
    the failure modes the source guards against (medium unavailable, key
    absent, unparsable payload) and `JValue`, the shape of a parsed JSON value
    as far as the loader inspects it.
-/

namespace Skillverse

/-- A JS value in a numeric position, as seen through `Number(·)`:
either a finite number (modelled exactly as a rational) or NaN. -/
inductive JNum where
  | nan : JNum
  | num (q : ℚ) : JNum
deriving DecidableEq, Repr

/-- Models the JS idiom `Number(v) || 0`: NaN (falsy) collapses to 0,
any finite number is returned unchanged (0 stays 0). -/
def numOrZero : JNum → ℚ
  | .nan => 0
  | .num q => q

/-- Models the JS test `Number(v) > 0` (false for NaN). -/
def jposB : JNum → Bool
  | .nan => false
  | .num q => decide (0 < q)

/-- The propositional counterpart of `jposB`: the value is a number
strictly greater than 0. -/
def QPos (j : JNum) : Prop := jposB j = true

instance : DecidablePred QPos := fun j => by unfold QPos; infer_instance

/-- A cart or wishlist entry: `id` is the sole equality key; `title` stands
for the descriptive payload copied at insertion; `price` and `quantity` are
numeric-position values. -/
structure Item where
  id : Nat
  title : String
  price : JNum
  quantity : JNum
deriving DecidableEq, Repr

/-- `addToCart` from CartWishlistContext.js: `findIndex` by `id`; if found,
replace the first matching entry by `{ ...entry, quantity: (Number(entry.quantity) || 0) + 1 }`;
otherwise append `{ ...product, quantity: 1 }` and set the `added` flag, which
fires the single "added to cart" toast.  Returns (next items, toasts fired). -/
def addToCart (product : Item) : List Item → List Item × Nat
  | [] => ([{ product with quantity := JNum.num 1 }], 1)
  | i :: rest =>
    if i.id = product.id then
      ({ i with quantity := JNum.num (numOrZero i.quantity + 1) } :: rest, 0)
    else
      ((addToCart product rest).1.cons i, (addToCart product rest).2)

/-- `removeFromCart` from CartWishlistContext.js:
`prev.filter((i) => i.id !== id)`, then one unconditional "Removed from cart"
toast. -/
def removeFromCart (id : Nat) (prev : List Item) : List Item × Nat :=
  (prev.filter (fun i => i.id != id), 1)

/-- `updateQuantity` from CartWishlistContext.js: map every entry with the
given `id` to `{ ...i, quantity: Number(quantity) }` (the argument is taken
already under `Number(·)` coercion, hence a `JNum`), then keep only entries
with `Number(i.quantity) > 0`.  Fires no toast. -/
def updateQuantity (id : Nat) (arg : JNum) (prev : List Item) : List Item × Nat :=
  ((prev.map (fun i => if i.id = id then { i with quantity := arg } else i)).filter
      (fun i => jposB i.quantity), 0)

/-- `clearCart` from CartWishlistContext.js: empties the cart and fires one
"Cart cleared!" toast. -/
def clearCart (_prev : List Item) : List Item × Nat :=
  ([], 1)

/-- `getTotalItems`: `items.reduce((s, i) => s + (Number(i.quantity) || 0), 0)`. -/
def getTotalItems (items : List Item) : ℚ :=
  items.foldl (fun s i => s + numOrZero i.quantity) 0

/-- `getTotalPrice`:
`items.reduce((s, i) => s + (Number(i.price) || 0) * (Number(i.quantity) || 0), 0)`. -/
def getTotalPrice (items : List Item) : ℚ :=
  items.foldl (fun s i => s + numOrZero i.price * numOrZero i.quantity) 0

/-- `isInCart`: `items.some((i) => i.id === id)`. -/
def isInCart (id : Nat) (items : List Item) : Bool :=
  items.any (fun i => i.id == id)

/-- `addToWishlist` from CartWishlistContext.js: if some entry already has
`product.id`, return the list unchanged (no toast); otherwise append the full
`product` record and fire one "added to wishlist" toast. -/
def addToWishlist (product : Item) (prev : List Item) : List Item × Nat :=
  if prev.any (fun i => i.id == product.id) then (prev, 0)
  else (prev ++ [product], 1)

/-- `removeFromWishlist`: filter by id, one unconditional toast. -/
def removeFromWishlist (id : Nat) (prev : List Item) : List Item × Nat :=
  (prev.filter (fun i => i.id != id), 1)

/-- `isInWishlist`: `items.some((i) => i.id === id)`. -/
def isInWishlist (id : Nat) (items : List Item) : Bool :=
  items.any (fun i => i.id == id)

/-- Wishlist `getTotalItems`: `items.length`. -/
def wishlistTotalItems (items : List Item) : Nat :=
  items.length

/-- No two entries of the cart share an `id`. -/
def UniqueIds (l : List Item) : Prop := (l.map Item.id).Nodup

/-- Every entry's quantity is a number strictly greater than 0. -/
def AllPos (l : List Item) : Prop := ∀ i ∈ l, QPos i.quantity

/-- The cart-state invariant of the data model: unique ids and positive
numeric quantities. -/
def CartInv (l : List Item) : Prop := UniqueIds l ∧ AllPos l

instance : DecidablePred UniqueIds := fun l => by unfold UniqueIds; infer_instance

instance : DecidablePred AllPos := fun l => by
  unfold AllPos; exact List.decidableBAll _ l

instance : DecidablePred CartInv := fun l => by unfold CartInv; infer_instance

/-- A parsed JSON value, as far as the loader inspects it: arrays carry their
elements (read as items); an object carries `some items` when its `items`
field is an array, `none` otherwise.  A JSON array never has an `items`
property, so `Array.isArray(saved.items)` is false on arrays. -/
inductive JValue where
  | jnull : JValue
  | jbool (b : Bool) : JValue
  | jnum (q : ℚ) : JValue
  | jstr (s : String) : JValue
  | jarr (elems : List Item) : JValue
  | jobj (items : Option (List Item)) : JValue
deriving DecidableEq, Repr

/-- What the storage medium holds under a key: the medium may be unavailable
(`window` undefined or `localStorage` access throws), the key may be absent
(or hold an empty string, falsy raw), the payload may fail `JSON.parse`, or a
parsed value comes back. -/
inductive Stored where
  | unavailable : Stored
  | absent : Stored
  | unparsable : Stored
  | val (v : JValue) : Stored
deriving DecidableEq, Repr

/-- `safeGet` from CartWishlistContext.js: returns `null` when the medium is
unavailable, the raw string is absent/falsy, or `JSON.parse` throws; otherwise
the parsed value.  The try/catch keeps every failure inside this boundary. -/
def safeGet : Stored → Option JValue
  | .unavailable => none
  | .absent => none
  | .unparsable => none
  | .val v => some v

/-- JS truthiness of a parsed JSON value (`!saved`): `null`, `false`, `0` and
the empty string are falsy; arrays and objects are always truthy. -/
def isFalsy : JValue → Bool
  | .jnull => true
  | .jbool b => !b
  | .jnum q => q == 0
  | .jstr s => s == ""
  | .jarr _ => false
  | .jobj _ => false

/-- The initial-state loader in `CartProvider` / `WishlistProvider`:
`if (!saved) return []; if (Array.isArray(saved.items)) return saved.items;
if (Array.isArray(saved)) return saved; return []`. -/
def initItems : Option JValue → List Item
  | none => []
  | some saved =>
    if isFalsy saved then []
    else
      match saved with
      | .jobj (some items) => items
      | .jarr elems => elems
      | _ => []

/-- Loading the cart (or wishlist) key: `safeGet` composed with the shape
dispatch above. -/
def loadItems (s : Stored) : List Item :=
  initItems (safeGet s)

/-- The value object a `CartProvider` supplies to its context: the current
items list (the operations of the API are the functions above, closed over
this state). -/
structure CartApi where
  items : List Item
deriving DecidableEq, Repr

/-- The value object a `WishlistProvider` supplies to its context. -/
structure WishlistApi where
  items : List Item
deriving DecidableEq, Repr

/-- `useCart` from CartWishlistContext.js: `useContext(CartContext)` yields
`null` (the `createContext(null)` default) when no provider is in scope —
modelled as `none` — and the provider's value object inside one.  On `null`
it throws; the error value carries the thrown message. -/
def useCart : Option CartApi → Except String CartApi
  | none => Except.error "useCart must be used within a CartProvider"
  | some ctx => Except.ok ctx

/-- `useWishlist` from CartWishlistContext.js, same pattern as `useCart`. -/
def useWishlist : Option WishlistApi → Except String WishlistApi
  | none => Except.error "useWishlist must be used within a WishlistProvider"
  | some ctx => Except.ok ctx

end Skillverse

namespace Skillverse

/-- Helper: present branch of `addToCart`.  If the cart decomposes as
`l₁ ++ e :: l₂` with `e` the first entry whose id matches the product (no
entry of `l₁` matches) and `e.quantity` a number `q`, then `addToCart`
replaces `e`'s quantity by `q + 1`, keeps every other field of `e` and every
other entry unchanged, and fires no toast. -/
theorem addToCart_present (l₁ l₂ : List Item) (e p : Item) (q : ℚ)
    (hfirst : ∀ i ∈ l₁, i.id ≠ p.id) (hid : e.id = p.id)
    (hq : e.quantity = JNum.num q) :
    addToCart p (l₁ ++ e :: l₂)
      = (l₁ ++ { e with quantity := JNum.num (q + 1) } :: l₂, 0) := by
  induction l₁ with
  | nil =>
      simp [addToCart, hid, hq, numOrZero]
  | cons a as ih =>
      have ha : a.id ≠ p.id := hfirst a (List.mem_cons_self a as)
      have hrec := ih (fun i hi => hfirst i (List.mem_cons_of_mem a hi))
      simp [addToCart, if_neg ha, hrec]

/-- Helper: absent branch of `addToCart`.  If no entry matches the product's
id, `addToCart` appends the product's fields with quantity 1 and fires
exactly one toast. -/
theorem addToCart_absent (l : List Item) (p : Item)
    (habs : ∀ i ∈ l, i.id ≠ p.id) :
    addToCart p l = (l ++ [{ p with quantity := JNum.num 1 }], 1) := by
  induction l with
  | nil => simp [addToCart]
  | cons a as ih =>
      have ha : a.id ≠ p.id := habs a (List.mem_cons_self a as)
      have hrec := ih (fun i hi => habs i (List.mem_cons_of_mem a hi))
      simp [addToCart, if_neg ha, hrec]

/-- Claim C1: on a cart whose first entry matching the product's id stores a
numeric quantity `q`, `addToCart` replaces exactly that entry's quantity by
`q + 1`, keeps all its other fields at their originally stored values (not
the new payload's) and every other entry untouched, and fires no toast; on a
cart with no matching entry it appends the product's fields with quantity 1
and fires exactly one "added to cart" toast. -/
theorem spec_C1 :
    (∀ (l₁ l₂ : List Item) (e p : Item) (q : ℚ),
        (∀ i ∈ l₁, i.id ≠ p.id) → e.id = p.id → e.quantity = JNum.num q →
        addToCart p (l₁ ++ e :: l₂)
          = (l₁ ++ { e with quantity := JNum.num (q + 1) } :: l₂, 0))
  ∧ (∀ (l : List Item) (p : Item), (∀ i ∈ l, i.id ≠ p.id) →
        addToCart p l = (l ++ [{ p with quantity := JNum.num 1 }], 1)) :=
  ⟨addToCart_present, addToCart_absent⟩

/-- Witness for C1: a concrete cart where an entry with id 1 (title "C",
price 7, quantity 2) is present gets its quantity bumped to 3 with title and
price kept from the stored entry, not from the payload (title "A", price 10);
a fresh id 3 is appended with quantity 1 and one toast. -/
theorem spec_C1_witness :
    (addToCart ⟨1, "A", JNum.num 10, JNum.nan⟩
        ([⟨2, "B", JNum.num 5, JNum.num 1⟩] ++ ⟨1, "C", JNum.num 7, JNum.num 2⟩ :: ([] : List Item))
      = ([⟨2, "B", JNum.num 5, JNum.num 1⟩] ++
          ⟨1, "C", JNum.num 7, JNum.num (2 + 1)⟩ :: ([] : List Item), 0))
  ∧ (addToCart ⟨3, "D", JNum.num 4, JNum.num 9⟩ [⟨2, "B", JNum.num 5, JNum.num 1⟩]
      = ([⟨2, "B", JNum.num 5, JNum.num 1⟩] ++ [⟨3, "D", JNum.num 4, JNum.num 1⟩], 1)) :=
  ⟨spec_C1.1 [⟨2, "B", JNum.num 5, JNum.num 1⟩] [] ⟨1, "C", JNum.num 7, JNum.num 2⟩
      ⟨1, "A", JNum.num 10, JNum.nan⟩ 2 (by decide) rfl rfl,
    spec_C1.2 [⟨2, "B", JNum.num 5, JNum.num 1⟩] ⟨3, "D", JNum.num 4, JNum.num 9⟩ (by decide)⟩

/-- Helper: a left fold of accumulating additions is the sum of the mapped
list. -/
theorem foldl_add_map_sum (f : Item → ℚ) :
    ∀ (l : List Item) (a : ℚ), l.foldl (fun s i => s + f i) a = a + (l.map f).sum := by
  intro l
  induction l with
  | nil => intro a; simp
  | cons i rest ih =>
      intro a
      simp only [List.foldl_cons, List.map_cons, List.sum_cons, ih, add_assoc]

/-- Claim C7: `getTotalPrice` equals the sum over all entries of
`price * quantity` under `Number(·) || 0` coercion (NaN contributes 0), and
on the concrete cart {price 19.99, quantity 2} + {price 49.00, quantity 1}
it yields 88.98 (numbers modelled as exact rationals). -/
theorem spec_C7 :
    (∀ items : List Item,
        getTotalPrice items
          = (items.map (fun i => numOrZero i.price * numOrZero i.quantity)).sum)
  ∧ getTotalPrice [⟨1, "Course A", JNum.num (1999 / 100), JNum.num 2⟩,
      ⟨2, "Course B", JNum.num 49, JNum.num 1⟩] = 8898 / 100 := by
  constructor
  · intro items
    simpa using foldl_add_map_sum (fun i => numOrZero i.price * numOrZero i.quantity) items 0
  · norm_num [getTotalPrice, numOrZero, List.foldl]

/-- Claim C8: calling `useCart` / `useWishlist` with no active provider in
scope raises an error whose message names the missing provider (shown here by
splitting the message around the provider's name), rather than returning a
degraded value; inside a provider the hook returns the provider's value
object unchanged. -/
theorem spec_C8 :
    useCart none = Except.error ("useCart must be used within a " ++ "CartProvider")
  ∧ useWishlist none = Except.error ("useWishlist must be used within a " ++ "WishlistProvider")
  ∧ (∀ c : CartApi, useCart (some c) = Except.ok c)
  ∧ (∀ w : WishlistApi, useWishlist (some w) = Except.ok w) :=
  ⟨rfl, rfl, fun _ => rfl, fun _ => rfl⟩

/-- Claim C6: the loader is total over every stored value and yields the
contained `items` sequence for an object-with-items, the value itself for a
bare array, and `[]` for every other parsed value as well as for an absent
key, an unparsable payload, and an unavailable storage medium. -/
theorem spec_C6 :
    (loadItems .unavailable = [] ∧ loadItems .absent = [] ∧ loadItems .unparsable = [])
  ∧ (∀ items : List Item, loadItems (.val (.jobj (some items))) = items)
  ∧ (∀ elems : List Item, loadItems (.val (.jarr elems)) = elems)
  ∧ (loadItems (.val .jnull) = []
      ∧ (∀ b : Bool, loadItems (.val (.jbool b)) = [])
      ∧ (∀ q : ℚ, loadItems (.val (.jnum q)) = [])
      ∧ (∀ s : String, loadItems (.val (.jstr s)) = [])
      ∧ loadItems (.val (.jobj none)) = []) := by
  refine ⟨⟨rfl, rfl, rfl⟩, fun items => rfl, fun elems => rfl, rfl, ?_, ?_, ?_, rfl⟩
  · intro b; cases b <;> rfl
  · intro q
    by_cases hq : q = 0 <;> simp [loadItems, safeGet, initItems, isFalsy, hq]
  · intro s
    by_cases hs : s = "" <;> simp [loadItems, safeGet, initItems, isFalsy, hs]

/-- Claim C10: the loader validates nothing — the bare array (and the
object-with-items shape) holding two entries that share id 1, one with
quantity 0 and one with a non-numeric quantity, is accepted verbatim, and the
resulting initial state violates the uniqueness-by-id and positive-quantity
invariant. -/
theorem spec_C10 :
    loadItems (.val (.jarr [⟨1, "A", JNum.num 5, JNum.num 0⟩, ⟨1, "B", JNum.num 3, JNum.nan⟩]))
      = [⟨1, "A", JNum.num 5, JNum.num 0⟩, ⟨1, "B", JNum.num 3, JNum.nan⟩]
  ∧ loadItems (.val (.jobj (some [⟨1, "A", JNum.num 5, JNum.num 0⟩, ⟨1, "B", JNum.num 3, JNum.nan⟩])))
      = [⟨1, "A", JNum.num 5, JNum.num 0⟩, ⟨1, "B", JNum.num 3, JNum.nan⟩]
  ∧ ¬ CartInv [⟨1, "A", JNum.num 5, JNum.num 0⟩, ⟨1, "B", JNum.num 3, JNum.nan⟩] :=
  ⟨rfl, rfl, by decide⟩

/-- Helper: after `updateQuantity`, every surviving entry passed the
`Number(i.quantity) > 0` filter, so every quantity is a positive number. -/
theorem upd_allPos (id : Nat) (arg : JNum) (l : List Item) :
    AllPos (updateQuantity id arg l).1 := by
  intro i hi
  simp only [updateQuantity] at hi
  show jposB i.quantity = true
  exact (List.mem_filter.mp hi).2

/-- Helper: when the new quantity fails `Number(·) > 0` (zero, negative or
NaN), no entry with the targeted id survives `updateQuantity`. -/
theorem upd_no_target (id : Nat) (arg : JNum) (l : List Item)
    (harg : jposB arg = false) :
    ∀ i ∈ (updateQuantity id arg l).1, i.id ≠ id := by
  intro i hi
  simp only [updateQuantity] at hi
  have hpos := (List.mem_filter.mp hi).2
  rcases List.mem_map.mp (List.mem_filter.mp hi).1 with ⟨j, _, rfl⟩
  by_cases hjid : j.id = id
  · rw [if_pos hjid] at hpos
    simp only at hpos
    rw [harg] at hpos
    cases hpos
  · rw [if_neg hjid]
    exact hjid

/-- Helper: an entry whose stored quantity fails `Number(·) > 0` never
survives `updateQuantity`, targeted or not. -/
theorem upd_drops_nonpos (id : Nat) (arg : JNum) (l : List Item) :
    ∀ i : Item, jposB i.quantity = false → i ∉ (updateQuantity id arg l).1 := by
  intro i hq hi
  simp only [updateQuantity] at hi
  have hpos := (List.mem_filter.mp hi).2
  rw [hq] at hpos
  cases hpos

/-- Claim C9: after any `updateQuantity(id, q)` call every remaining entry
has a numeric quantity strictly greater than 0; when `Number(q)` is not
greater than 0 — including NaN from a non-numeric argument — the targeted
entry is removed; and any other entry whose stored quantity was already
non-positive or non-numeric is removed by the same call even though its id
was not targeted. -/
theorem spec_C9 (l : List Item) (id : Nat) (arg : JNum) :
    AllPos (updateQuantity id arg l).1
  ∧ (jposB arg = false → ∀ i ∈ (updateQuantity id arg l).1, i.id ≠ id)
  ∧ (∀ i ∈ l, i.id ≠ id → jposB i.quantity = false →
      i ∉ (updateQuantity id arg l).1) :=
  ⟨upd_allPos id arg l,
   fun harg => upd_no_target id arg l harg,
   fun i _ _ hq => upd_drops_nonpos id arg l i hq⟩

/-- Witness for C9: on the cart [{id 1, qty 2}, {id 2, qty 0}], setting the
quantity of id 1 to a non-numeric value empties the cart: id 1 is gone and
the untargeted id 2 entry with quantity 0 is also dropped. -/
theorem spec_C9_witness :
    AllPos (updateQuantity 1 JNum.nan
      [⟨1, "A", JNum.num 5, JNum.num 2⟩, ⟨2, "B", JNum.num 5, JNum.num 0⟩]).1
  ∧ (∀ i ∈ (updateQuantity 1 JNum.nan
      [⟨1, "A", JNum.num 5, JNum.num 2⟩, ⟨2, "B", JNum.num 5, JNum.num 0⟩]).1, i.id ≠ 1)
  ∧ (⟨2, "B", JNum.num 5, JNum.num 0⟩ : Item) ∉ (updateQuantity 1 JNum.nan
      [⟨1, "A", JNum.num 5, JNum.num 2⟩, ⟨2, "B", JNum.num 5, JNum.num 0⟩]).1 :=
  ⟨(spec_C9 [⟨1, "A", JNum.num 5, JNum.num 2⟩, ⟨2, "B", JNum.num 5, JNum.num 0⟩] 1 JNum.nan).1,
   (spec_C9 [⟨1, "A", JNum.num 5, JNum.num 2⟩, ⟨2, "B", JNum.num 5, JNum.num 0⟩] 1 JNum.nan).2.1 rfl,
   (spec_C9 [⟨1, "A", JNum.num 5, JNum.num 2⟩, ⟨2, "B", JNum.num 5, JNum.num 0⟩] 1 JNum.nan).2.2
     ⟨2, "B", JNum.num 5, JNum.num 0⟩ (by simp) (by decide) rfl⟩

/-- Helper: on a cart whose quantities are all positive, `updateQuantity`
with a new quantity failing `Number(·) > 0` is exactly the removal filter. -/
theorem upd_eq_filter (id : Nat) (arg : JNum) (l : List Item)
    (hpos : AllPos l) (harg : jposB arg = false) :
    (updateQuantity id arg l).1 = l.filter (fun i => i.id != id) := by
  induction l with
  | nil => rfl
  | cons a rest ih =>
      have hpa : jposB a.quantity = true := hpos a (List.mem_cons_self a rest)
      have hrec := ih (fun i hi => hpos i (List.mem_cons_of_mem a hi))
      simp only [updateQuantity] at hrec ⊢
      by_cases ha : a.id = id <;>
        simp [List.filter_cons, ha, harg, hpa, hrec]

/-- Helper: on a cart whose quantities are all positive, `updateQuantity`
with a new quantity passing `Number(·) > 0` is exactly the map that rewrites
the targeted entries' quantity; the filter drops nothing. -/
theorem upd_eq_map (id : Nat) (arg : JNum) (l : List Item)
    (hpos : AllPos l) (harg : jposB arg = true) :
    (updateQuantity id arg l).1
      = l.map (fun i => if i.id = id then { i with quantity := arg } else i) := by
  simp only [updateQuantity]
  apply List.filter_eq_self.mpr
  intro i hi
  rcases List.mem_map.mp hi with ⟨j, hj, rfl⟩
  by_cases hjid : j.id = id
  · rw [if_pos hjid]
    exact harg
  · rw [if_neg hjid]
    exact hpos j hj

/-- Helper: on a cart whose quantities are all positive and that holds no
entry with the given id, `updateQuantity` changes nothing. -/
theorem upd_absent_eq (id : Nat) (arg : JNum) (l : List Item)
    (hpos : AllPos l) (habs : ∀ i ∈ l, i.id ≠ id) :
    (updateQuantity id arg l).1 = l := by
  simp only [updateQuantity]
  have hmap : l.map (fun i => if i.id = id then { i with quantity := arg } else i)
      = l.map (fun i => i) :=
    List.map_congr_left (fun i hi => if_neg (habs i hi))
  rw [hmap, List.map_id']
  exact List.filter_eq_self.mpr (fun i hi => hpos i hi)

/-- Claim C3: on a cart satisfying the data-model invariant,
`updateQuantity(id, q)` with `q ≤ 0` produces exactly the state
`removeFromCart(id)` produces (and membership of `id` becomes false); with
`q > 0` it rewrites just the targeted entry's quantity to `q`, all other
fields and entries untouched; with `id` absent the state is unchanged; and
no toast is ever fired. -/
theorem spec_C3 (l : List Item) (id : Nat) (q : ℚ) (hinv : CartInv l) :
    (q ≤ 0 →
        (updateQuantity id (JNum.num q) l).1 = (removeFromCart id l).1
      ∧ isInCart id (updateQuantity id (JNum.num q) l).1 = false)
  ∧ (0 < q →
        (updateQuantity id (JNum.num q) l).1
          = l.map (fun i => if i.id = id then { i with quantity := JNum.num q } else i))
  ∧ ((∀ i ∈ l, i.id ≠ id) → (updateQuantity id (JNum.num q) l).1 = l)
  ∧ (updateQuantity id (JNum.num q) l).2 = 0 := by
  have harg0 : q ≤ 0 → jposB (JNum.num q) = false := fun hq => by
    simp [jposB, not_lt.mpr hq]
  refine ⟨fun hq => ⟨?_, ?_⟩, fun hq => ?_, fun habs => ?_, rfl⟩
  · rw [upd_eq_filter id (JNum.num q) l hinv.2 (harg0 hq)]
    rfl
  · rw [isInCart, List.any_eq_false]
    intro i hi
    have := upd_no_target id (JNum.num q) l (harg0 hq) i hi
    simpa using this
  · exact upd_eq_map id (JNum.num q) l hinv.2 (by simp [jposB, hq])
  · exact upd_absent_eq id (JNum.num q) l hinv.2 habs

/-- Witness for C3: on the invariant-satisfying cart
[{id 1, qty 2}, {id 2, qty 1}], setting quantity 0 for id 1 yields the same
state as removal of id 1; setting quantity 5 rewrites only that entry; and an
update targeting the absent id 9 leaves the cart unchanged. -/
theorem spec_C3_witness :
    ((updateQuantity 1 (JNum.num 0)
        [⟨1, "A", JNum.num 5, JNum.num 2⟩, ⟨2, "B", JNum.num 3, JNum.num 1⟩]).1
      = (removeFromCart 1
        [⟨1, "A", JNum.num 5, JNum.num 2⟩, ⟨2, "B", JNum.num 3, JNum.num 1⟩]).1)
  ∧ ((updateQuantity 1 (JNum.num 5)
        [⟨1, "A", JNum.num 5, JNum.num 2⟩, ⟨2, "B", JNum.num 3, JNum.num 1⟩]).1
      = [⟨1, "A", JNum.num 5, JNum.num 2⟩, ⟨2, "B", JNum.num 3, JNum.num 1⟩].map
          (fun i => if i.id = 1 then { i with quantity := JNum.num 5 } else i))
  ∧ ((updateQuantity 9 (JNum.num 5)
        [⟨1, "A", JNum.num 5, JNum.num 2⟩, ⟨2, "B", JNum.num 3, JNum.num 1⟩]).1
      = [⟨1, "A", JNum.num 5, JNum.num 2⟩, ⟨2, "B", JNum.num 3, JNum.num 1⟩]) :=
  ⟨((spec_C3 [⟨1, "A", JNum.num 5, JNum.num 2⟩, ⟨2, "B", JNum.num 3, JNum.num 1⟩] 1 0
      (by constructor <;> decide)).1 le_rfl).1,
   (spec_C3 [⟨1, "A", JNum.num 5, JNum.num 2⟩, ⟨2, "B", JNum.num 3, JNum.num 1⟩] 1 5
      (by constructor <;> decide)).2.1 (by norm_num),
   (spec_C3 [⟨1, "A", JNum.num 5, JNum.num 2⟩, ⟨2, "B", JNum.num 3, JNum.num 1⟩] 9 5
      (by constructor <;> decide)).2.2.1 (by decide)⟩

/-- Helper: when some entry already carries the product's id, `addToCart`
leaves the id sequence unchanged. -/
theorem addToCart_ids_present (p : Item) (l : List Item)
    (hany : ∃ j ∈ l, j.id = p.id) :
    ((addToCart p l).1).map Item.id = l.map Item.id := by
  induction l with
  | nil => rcases hany with ⟨j, hj, _⟩; cases hj
  | cons a rest ih =>
      by_cases ha : a.id = p.id
      · simp [addToCart, ha]
      · have hrest : ∃ j ∈ rest, j.id = p.id := by
          rcases hany with ⟨j, hj, hje⟩
          rcases List.mem_cons.mp hj with rfl | hjr
          · exact absurd hje ha
          · exact ⟨j, hjr, hje⟩
        simp [addToCart, ha, ih hrest]

/-- Helper: `addToCart` preserves uniqueness of ids — an existing id keeps
the id sequence, a fresh id appends one new id not previously present. -/
theorem addToCart_uniqueIds (p : Item) (l : List Item) (h : UniqueIds l) :
    UniqueIds (addToCart p l).1 := by
  by_cases hp : ∃ j ∈ l, j.id = p.id
  · unfold UniqueIds
    rw [addToCart_ids_present p l hp]
    exact h
  · push_neg at hp
    unfold UniqueIds
    rw [addToCart_absent l p hp]
    have hnotin : p.id ∉ l.map Item.id := by
      intro hmem
      rcases List.mem_map.mp hmem with ⟨j, hj, hje⟩
      exact hp j hj hje
    rw [List.map_append, List.nodup_append]
    refine ⟨h, by simp, ?_⟩
    intro x hx
    simp only [List.map_cons, List.map_nil, List.mem_singleton]
    intro hxe
    subst hxe
    exact absurd hx hnotin

/-- Helper: `addToCart` preserves positivity of quantities: an incremented
numeric quantity stays positive, a fresh entry starts at 1. -/
theorem addToCart_allPos (p : Item) (l : List Item) (h : AllPos l) :
    AllPos (addToCart p l).1 := by
  induction l with
  | nil =>
      intro i hi
      simp only [addToCart, List.mem_singleton] at hi
      subst hi
      show jposB (JNum.num 1) = true
      decide
  | cons a rest ih =>
      have hrest : AllPos rest := fun j hj => h j (List.mem_cons_of_mem a hj)
      by_cases ha : a.id = p.id
      · intro i hi
        simp only [addToCart, if_pos ha] at hi
        rcases List.mem_cons.mp hi with rfl | hirest
        · have hqa : QPos a.quantity := h a (List.mem_cons_self a rest)
          show jposB (JNum.num (numOrZero a.quantity + 1)) = true
          cases hq : a.quantity with
          | nan =>
              rw [QPos, hq] at hqa
              exact absurd hqa (by decide)
          | num q =>
              rw [QPos, hq] at hqa
              have hq0 : (0 : ℚ) < q := by simpa [jposB] using hqa
              have : (0 : ℚ) < q + 1 := by linarith
              simp [jposB, numOrZero, hq, this]
        · exact h i (List.mem_cons_of_mem a hirest)
      · intro i hi
        simp only [addToCart, if_neg ha, List.cons] at hi
        rcases List.mem_cons.mp hi with rfl | hirest
        · exact h i (List.mem_cons_self i rest)
        · exact ih hrest i hirest

/-- Helper: removal preserves uniqueness of ids (the surviving ids are a
sublist of the original ids). -/
theorem remove_uniqueIds (id : Nat) (l : List Item) (h : UniqueIds l) :
    UniqueIds (removeFromCart id l).1 := by
  have hsub : List.Sublist (((removeFromCart id l).1).map Item.id) (l.map Item.id) :=
    List.Sublist.map Item.id (List.filter_sublist l)
  exact List.Nodup.sublist hsub h

/-- Helper: removal preserves positivity of quantities (survivors come from
the original cart). -/
theorem remove_allPos (id : Nat) (l : List Item) (h : AllPos l) :
    AllPos (removeFromCart id l).1 :=
  fun i hi => h i (List.mem_of_mem_filter hi)

/-- Helper: `updateQuantity` preserves uniqueness of ids: the rewrite keeps
every id in place and the filter only drops entries. -/
theorem upd_uniqueIds (id : Nat) (arg : JNum) (l : List Item) (h : UniqueIds l) :
    UniqueIds (updateQuantity id arg l).1 := by
  have hids : (l.map (fun i => if i.id = id then { i with quantity := arg } else i)).map Item.id
      = l.map Item.id := by
    rw [List.map_map]
    apply List.map_congr_left
    intro i _
    by_cases hi : i.id = id <;> simp [Function.comp, hi]
  have hsub : List.Sublist (((updateQuantity id arg l).1).map Item.id)
      ((l.map (fun i => if i.id = id then { i with quantity := arg } else i)).map Item.id) := by
    simp only [updateQuantity]
    exact List.Sublist.map Item.id (List.filter_sublist _)
  rw [hids] at hsub
  exact List.Nodup.sublist hsub h

/-- Claim C2: every cart operation preserves the data-model invariant
(unique ids, positive numeric quantities): `addToCart` for any product,
`removeFromCart` for any id, `updateQuantity` for any positive integer
argument, and `clearCart`; and an update that would drop a quantity to zero
or below removes the entry instead of leaving an invalid state. -/
theorem spec_C2 (l : List Item) (hinv : CartInv l) :
    (∀ p : Item, CartInv (addToCart p l).1)
  ∧ (∀ id : Nat, CartInv (removeFromCart id l).1)
  ∧ (∀ (id : Nat) (n : ℕ), 0 < n → CartInv (updateQuantity id (JNum.num n) l).1)
  ∧ (∀ (id : Nat) (q : ℚ), q ≤ 0 → isInCart id (updateQuantity id (JNum.num q) l).1 = false)
  ∧ CartInv (clearCart l).1 := by
  refine ⟨fun p => ⟨addToCart_uniqueIds p l hinv.1, addToCart_allPos p l hinv.2⟩,
    fun id => ⟨remove_uniqueIds id l hinv.1, remove_allPos id l hinv.2⟩,
    fun id n _ => ⟨upd_uniqueIds id (JNum.num n) l hinv.1, upd_allPos id (JNum.num n) l⟩,
    fun id q hq => ?_,
    ⟨by simp [UniqueIds, clearCart], fun i hi => absurd hi (List.not_mem_nil i)⟩⟩
  rw [isInCart, List.any_eq_false]
  intro i hi
  have harg : jposB (JNum.num q) = false := by simp [jposB, not_lt.mpr hq]
  simpa using upd_no_target id (JNum.num q) l harg i hi

/-- Witness for C2: the invariant holds after each operation on the concrete
invariant-satisfying cart [{id 1, qty 2}]. -/
theorem spec_C2_witness :
    CartInv (addToCart ⟨3, "C", JNum.num 2, JNum.nan⟩ [⟨1, "A", JNum.num 5, JNum.num 2⟩]).1
  ∧ CartInv (removeFromCart 1 [⟨1, "A", JNum.num 5, JNum.num 2⟩]).1
  ∧ CartInv (updateQuantity 1 (JNum.num ((3 : ℕ) : ℚ)) [⟨1, "A", JNum.num 5, JNum.num 2⟩]).1
  ∧ isInCart 1 (updateQuantity 1 (JNum.num 0) [⟨1, "A", JNum.num 5, JNum.num 2⟩]).1 = false
  ∧ CartInv (clearCart [⟨1, "A", JNum.num 5, JNum.num 2⟩]).1 :=
  ⟨(spec_C2 [⟨1, "A", JNum.num 5, JNum.num 2⟩] (by constructor <;> decide)).1
      ⟨3, "C", JNum.num 2, JNum.nan⟩,
   (spec_C2 [⟨1, "A", JNum.num 5, JNum.num 2⟩] (by constructor <;> decide)).2.1 1,
   (spec_C2 [⟨1, "A", JNum.num 5, JNum.num 2⟩] (by constructor <;> decide)).2.2.1 1 3 (by decide),
   (spec_C2 [⟨1, "A", JNum.num 5, JNum.num 2⟩] (by constructor <;> decide)).2.2.2.1 1 0 le_rfl,
   (spec_C2 [⟨1, "A", JNum.num 5, JNum.num 2⟩] (by constructor <;> decide)).2.2.2.2⟩

/-- Claim C4: `removeFromCart(id)` keeps exactly the entries whose id
differs (in order), so membership of `id` becomes false; when no entry
matches, the items sequence is unchanged (and no error is possible, the
operation being total); and in every case — removal or not — exactly one
"removed" toast fires. -/
theorem spec_C4 (l : List Item) (id : Nat) :
    (removeFromCart id l).2 = 1
  ∧ (removeFromCart id l).1 = l.filter (fun i => i.id != id)
  ∧ isInCart id (removeFromCart id l).1 = false
  ∧ (∀ i ∈ l, i.id ≠ id → i ∈ (removeFromCart id l).1)
  ∧ ((∀ i ∈ l, i.id ≠ id) → (removeFromCart id l).1 = l) := by
  refine ⟨rfl, rfl, ?_, ?_, ?_⟩
  · rw [isInCart, List.any_eq_false]
    intro i hi
    have hne := (List.mem_filter.mp hi).2
    simpa using hne
  · intro i hil hne
    exact List.mem_filter.mpr ⟨hil, by simpa using hne⟩
  · intro habs
    apply List.filter_eq_self.mpr
    intro i hi
    simpa using habs i hi

/-- Witness for C4: removing id 1 from [{id 1}, {id 2}] fires one toast,
drops id 1 and keeps id 2; removing the absent id 9 leaves the cart
unchanged and still fires one toast. -/
theorem spec_C4_witness :
    (removeFromCart 1 [⟨1, "A", JNum.num 5, JNum.num 2⟩, ⟨2, "B", JNum.num 3, JNum.num 1⟩]).2 = 1
  ∧ isInCart 1 (removeFromCart 1
      [⟨1, "A", JNum.num 5, JNum.num 2⟩, ⟨2, "B", JNum.num 3, JNum.num 1⟩]).1 = false
  ∧ (⟨2, "B", JNum.num 3, JNum.num 1⟩ : Item) ∈ (removeFromCart 1
      [⟨1, "A", JNum.num 5, JNum.num 2⟩, ⟨2, "B", JNum.num 3, JNum.num 1⟩]).1
  ∧ (removeFromCart 9 [⟨1, "A", JNum.num 5, JNum.num 2⟩, ⟨2, "B", JNum.num 3, JNum.num 1⟩]).1
      = [⟨1, "A", JNum.num 5, JNum.num 2⟩, ⟨2, "B", JNum.num 3, JNum.num 1⟩]
  ∧ (removeFromCart 9 [⟨1, "A", JNum.num 5, JNum.num 2⟩, ⟨2, "B", JNum.num 3, JNum.num 1⟩]).2 = 1 :=
  ⟨(spec_C4 [⟨1, "A", JNum.num 5, JNum.num 2⟩, ⟨2, "B", JNum.num 3, JNum.num 1⟩] 1).1,
   (spec_C4 [⟨1, "A", JNum.num 5, JNum.num 2⟩, ⟨2, "B", JNum.num 3, JNum.num 1⟩] 1).2.2.1,
   (spec_C4 [⟨1, "A", JNum.num 5, JNum.num 2⟩, ⟨2, "B", JNum.num 3, JNum.num 1⟩] 1).2.2.2.1
     ⟨2, "B", JNum.num 3, JNum.num 1⟩ (by simp) (by decide),
   (spec_C4 [⟨1, "A", JNum.num 5, JNum.num 2⟩, ⟨2, "B", JNum.num 3, JNum.num 1⟩] 9).2.2.2.2
     (by decide),
   (spec_C4 [⟨1, "A", JNum.num 5, JNum.num 2⟩, ⟨2, "B", JNum.num 3, JNum.num 1⟩] 9).1⟩

/-- Claim C5: wishlist `addItem` is idempotent on id — with the id already
present it returns the list unchanged and fires no toast; called twice with
the same id starting from any state not containing it, exactly one entry with
that id is stored and exactly one "added to wishlist" toast fires across the
two calls. -/
theorem spec_C5 :
    (∀ (l : List Item) (p : Item), isInWishlist p.id l = true → addToWishlist p l = (l, 0))
  ∧ (∀ (l : List Item) (p₁ p₂ : Item), p₂.id = p₁.id → (∀ i ∈ l, i.id ≠ p₁.id) →
      ((addToWishlist p₂ (addToWishlist p₁ l).1).1.countP (fun i => i.id == p₁.id) = 1
        ∧ (addToWishlist p₁ l).2 + (addToWishlist p₂ (addToWishlist p₁ l).1).2 = 1)) := by
  constructor
  · intro l p hin
    have hin' : (l.any fun i => i.id == p.id) = true := hin
    simp [addToWishlist, hin']
  · intro l p₁ p₂ hid habs
    have hany : (l.any fun i => i.id == p₁.id) = false := by
      rw [List.any_eq_false]
      intro i hi
      simpa using habs i hi
    have hstep1 : addToWishlist p₁ l = (l ++ [p₁], 1) := by
      simp [addToWishlist, hany]
    have hin2 : ((l ++ [p₁]).any fun i => i.id == p₂.id) = true := by
      rw [List.any_eq_true]
      exact ⟨p₁, by simp, by simp [hid]⟩
    have hstep2 : addToWishlist p₂ (l ++ [p₁]) = (l ++ [p₁], 0) := by
      simp [addToWishlist, hin2]
    rw [hstep1]
    simp only at hstep2 ⊢
    rw [hstep2]
    have hzero : l.countP (fun i => i.id == p₁.id) = 0 := by
      rw [List.countP_eq_zero]
      intro i hi
      simpa using habs i hi
    constructor
    · rw [List.countP_append, hzero]
      simp [List.countP_cons]
    · rfl

/-- Witness for C5: adding id 1 to a wishlist already holding id 1 is a
no-op without a toast; adding id 7 twice to the empty wishlist stores one
entry with id 7 and fires one toast in total. -/
theorem spec_C5_witness :
    addToWishlist ⟨1, "X", JNum.num 3, JNum.nan⟩ [⟨1, "A", JNum.num 2, JNum.nan⟩]
      = ([⟨1, "A", JNum.num 2, JNum.nan⟩], 0)
  ∧ ((addToWishlist ⟨7, "W2", JNum.num 2, JNum.nan⟩
        (addToWishlist ⟨7, "W1", JNum.num 1, JNum.nan⟩ ([] : List Item)).1).1.countP
        (fun i => i.id == 7) = 1
      ∧ (addToWishlist ⟨7, "W1", JNum.num 1, JNum.nan⟩ ([] : List Item)).2
        + (addToWishlist ⟨7, "W2", JNum.num 2, JNum.nan⟩
            (addToWishlist ⟨7, "W1", JNum.num 1, JNum.nan⟩ ([] : List Item)).1).2 = 1) :=
  ⟨spec_C5.1 [⟨1, "A", JNum.num 2, JNum.nan⟩] ⟨1, "X", JNum.num 3, JNum.nan⟩ rfl,
   spec_C5.2 [] ⟨7, "W1", JNum.num 1, JNum.nan⟩ ⟨7, "W2", JNum.num 2, JNum.nan⟩ rfl
     (fun i hi => absurd hi (List.not_mem_nil i))⟩

end Skillverse
